import Mathlib

/-!
# Verification of the ambient-motion particle/contour engine

Shallow embedding, in Lean 4, of the algorithmic core of the repository:

* `Contours` — the marching-squares contour extractor (`src/contours.js`,
  present in the repository as an unnamed source file exporting
  `marchingSquares`, `renderContours`, `renderMultiContours`);
* `Noise` — the fractal-Brownian-motion noise compositor (`src/noise.js`);
* `Spring` — the damped-spring integrator (`src/spring.js`);
* `Particles` — the particle class and its per-frame update
  (`src/particles.js`);
* `Ambient` — the orchestrator's per-frame steps and configuration handling
  (`src/ambient.js`).

JavaScript numbers are modelled as elements of a linear ordered field
(instantiated at `ℚ` for concrete evaluation and at `ℝ` for analytic
statements).  Where a data path can carry the JavaScript values
`undefined`/`NaN` (reading an object property that no code ever assigns,
and arithmetic on the result), that path is modelled with `Option ℝ`,
`none` standing for the non-real values; this is confined to the
`Ambient.RParticle` retargeting model, where it is load-bearing.
-/

namespace Contours

variable {α : Type*} [LinearOrderedField α]

/-- The 16-case marching-squares edge table, entry by entry from the source
(`EDGE_TABLE`).  Each inner pair `(e₁, e₂)` names the two cell edges
(0 = top, 1 = right, 2 = bottom, 3 = left) joined by one emitted segment. -/
def EDGE_TABLE : List (List (ℕ × ℕ)) :=
  [ [],                       -- 0
    [(3, 0)],                 -- 1
    [(0, 1)],                 -- 2
    [(3, 1)],                 -- 3
    [(1, 2)],                 -- 4
    [(3, 0), (1, 2)],         -- 5
    [(0, 2)],                 -- 6
    [(3, 2)],                 -- 7
    [(2, 3)],                 -- 8
    [(2, 0)],                 -- 9
    [(0, 1), (2, 3)],         -- 10
    [(2, 1)],                 -- 11
    [(1, 3)],                 -- 12
    [(1, 0)],                 -- 13
    [(0, 3)],                 -- 14
    [] ]                      -- 15

/-- `lerp(a, b, t)` from the source. -/
def lerp (a b t : α) : α := a + (b - a) * t

/-- `invLerp(a, b, v)` from the source: `(v - a) / (b - a)`. -/
def invLerp (a b v : α) : α := (v - a) / (b - a)

/-- `getEdgePoint(edge, x, y, size, tl, tr, br, bl, threshold)` from the
source: the interpolated crossing point on the given edge of the cell whose
top-left corner is `(x, y)`. -/
def getEdgePoint (edge : ℕ) (x y size tl tr br bl threshold : α) : α × α :=
  match edge with
  | 0 => (x + invLerp tl tr threshold * size, y)
  | 1 => (x + size, y + invLerp tr br threshold * size)
  | 2 => (x + invLerp bl br threshold * size, y + size)
  | 3 => (x, y + invLerp tl bl threshold * size)
  | _ => (x, y)

/-- `marchingSquares(field, cols, rows, threshold, cellSize)` from the source.
The scalar field is the row-major array `field` (index `row * cols + col`);
the result is the list of emitted segments in emission order.  The case
index is built exactly as in the source: bit 8 for `tl > threshold`, 4 for
`tr`, 2 for `br`, 1 for `bl`. -/
def marchingSquares (field : ℕ → α) (cols rows : ℕ) (threshold cellSize : α) :
    List ((α × α) × (α × α)) :=
  (List.range (rows - 1)).flatMap fun row =>
    (List.range (cols - 1)).flatMap fun col =>
      let x := (col : α) * cellSize
      let y := (row : α) * cellSize
      let tl := field (row * cols + col)
      let tr := field (row * cols + col + 1)
      let br := field ((row + 1) * cols + col + 1)
      let bl := field ((row + 1) * cols + col)
      let caseIndex :=
        (if tl > threshold then 8 else 0) +
        (if tr > threshold then 4 else 0) +
        (if br > threshold then 2 else 0) +
        (if bl > threshold then 1 else 0)
      (EDGE_TABLE.getD caseIndex []).map fun e =>
        (getEdgePoint e.1 x y cellSize tl tr br bl threshold,
         getEdgePoint e.2 x y cellSize tl tr br bl threshold)

/-- A 2×2 scalar grid (a single marching-squares cell) as a row-major field:
index 0 ↦ `tl`, 1 ↦ `tr`, 2 ↦ `bl`, 3 ↦ `br`, matching how `marchingSquares`
reads the corners of the cell at `row = col = 0` when `cols = rows = 2`. -/
def cornerField (tl tr bl br : α) : ℕ → α :=
  fun n => if n = 0 then tl else if n = 1 then tr else if n = 2 then bl else br

/-- Membership of a point on a closed segment (the convex hull of its two
endpoints), used to state that two emitted segments are disjoint. -/
def onSeg (q : α × α) (seg : (α × α) × (α × α)) : Prop :=
  ∃ t, 0 ≤ t ∧ t ≤ 1 ∧
    q = ((1 - t) * seg.1.1 + t * seg.2.1, (1 - t) * seg.1.2 + t * seg.2.2)

/-- The point `q` lies on the boundary of the square cell `[0, size]²`. -/
def onCellBoundary (size : α) (q : α × α) : Prop :=
  (0 ≤ q.1 ∧ q.1 ≤ size ∧ 0 ≤ q.2 ∧ q.2 ≤ size) ∧
    (q.1 = 0 ∨ q.1 = size ∨ q.2 = 0 ∨ q.2 = size)

/-- A convex combination of two values that are both below `r` is below `r`. -/
theorem convex_lt {t u w r : ℝ} (ht0 : 0 ≤ t) (ht1 : t ≤ 1) (hu : u < r) (hw : w < r) :
    (1 - t) * u + t * w < r := by
  rcases eq_or_lt_of_le ht1 with h | h
  · rw [h]; simpa using hw
  · have h1 : (1 - t) * u < (1 - t) * r := by
      apply mul_lt_mul_of_pos_left hu; linarith
    have h2 : t * w ≤ t * r := mul_le_mul_of_nonneg_left hw.le ht0
    nlinarith

/-- A convex combination of two values that are both above `r` is above `r`. -/
theorem convex_gt {t u w r : ℝ} (ht0 : 0 ≤ t) (ht1 : t ≤ 1) (hu : r < u) (hw : r < w) :
    r < (1 - t) * u + t * w := by
  have := convex_lt ht0 ht1 (neg_lt_neg hu) (neg_lt_neg hw)
  nlinarith

/-- Interpolation parameter range when the edge runs from a corner at or below
the threshold to a corner strictly above it. -/
theorem invLerp_nonneg_lt_one {a b v : ℝ} (h1 : a ≤ v) (h2 : v < b) :
    0 ≤ invLerp a b v ∧ invLerp a b v < 1 := by
  have hb : (0:ℝ) < b - a := by linarith
  constructor
  · exact div_nonneg (by linarith) hb.le
  · rw [invLerp, div_lt_one hb]; linarith

/-- Interpolation parameter range when the edge runs from a corner strictly
above the threshold to a corner at or below it. -/
theorem invLerp_pos_le_one {a b v : ℝ} (h1 : b ≤ v) (h2 : v < a) :
    0 < invLerp a b v ∧ invLerp a b v ≤ 1 := by
  have hb : b - a < 0 := by linarith
  have hv : v - a < 0 := by linarith
  constructor
  · exact div_pos_of_neg_of_neg hv hb
  · rw [invLerp, div_le_one_iff]
    right; right; exact ⟨hb, by linarith⟩

/-- The segment joining a point on the left edge (height `a·s`) to a point on
the top edge (abscissa `b·s`) is disjoint from the segment joining a point on
the right edge to a point on the bottom edge: the functional `q.1 + q.2` is
below `s` on the first and above `s` on the second. -/
theorem segA_disjoint {a b c d s : ℝ} (hs : 0 < s)
    (ha1 : a < 1) (hb1 : b < 1) (hc0 : 0 < c) (hd0 : 0 < d) :
    ∀ q, onSeg q ((0, a * s), (b * s, 0)) → onSeg q ((s, c * s), (d * s, s)) → False := by
  rintro q ⟨t, ht0, ht1, rfl⟩ ⟨u, hu0, hu1, heq⟩
  have h1 : (1 - t) * 0 + t * (b * s) = (1 - u) * s + u * (d * s) := congrArg Prod.fst heq
  have h2 : (1 - t) * (a * s) + t * 0 = (1 - u) * (c * s) + u * s := congrArg Prod.snd heq
  have hlt : (1 - t) * (a * s) + t * (b * s) < s :=
    convex_lt ht0 ht1 (by nlinarith) (by nlinarith)
  have hgt : s < (1 - u) * (s + c * s) + u * (d * s + s) :=
    convex_gt hu0 hu1 (by nlinarith) (by nlinarith)
  nlinarith

/-- The segment joining a point on the top edge to a point on the right edge
is disjoint from the segment joining a point on the bottom edge to a point on
the left edge: the functional `q.1 - q.2` is positive on the first and
negative on the second. -/
theorem segB_disjoint {a b c d s : ℝ} (hs : 0 < s)
    (ha0 : 0 < a) (hb0 : 0 < b) (hc1 : c < 1) (hd1 : d < 1) :
    ∀ q, onSeg q ((b * s, 0), (s, c * s)) → onSeg q ((d * s, s), (0, a * s)) → False := by
  rintro q ⟨t, ht0, ht1, rfl⟩ ⟨u, hu0, hu1, heq⟩
  have h1 : (1 - t) * (b * s) + t * s = (1 - u) * (d * s) + u * 0 := congrArg Prod.fst heq
  have h2 : (1 - t) * 0 + t * (c * s) = (1 - u) * s + u * (a * s) := congrArg Prod.snd heq
  have hgt : (0:ℝ) < (1 - t) * (b * s - 0) + t * (s - c * s) :=
    convex_gt ht0 ht1 (by nlinarith) (by nlinarith)
  have hlt : (1 - u) * (d * s - s) + u * (0 - a * s) < 0 :=
    convex_lt hu0 hu1 (by nlinarith) (by nlinarith)
  nlinarith

end Contours

/-- Claim C5: for each of the two saddle configurations of marching squares
(the corner patterns in which the two diagonal pairs of corners lie on
opposite sides of the threshold: `tr, bl` strictly above with `tl, br` at or
below, and the mirrored pattern), the extractor emits exactly the two line
segments dictated by the corresponding fixed entry of the 16-case table
(`EDGE_TABLE[5] = [[3,0],[1,2]]`, `EDGE_TABLE[10] = [[0,1],[2,3]]`), never a
single connected diagonal, and the two emitted segments are disjoint as point
sets.  Being a pure function of its arguments, the result is identical on
every invocation. -/
theorem c5_saddle_two_disjoint_segments (tl tr br bl thr s : ℝ) (hs : 0 < s) :
    ((tl ≤ thr ∧ br ≤ thr ∧ thr < tr ∧ thr < bl) →
      Contours.marchingSquares (Contours.cornerField tl tr bl br) 2 2 thr s =
          [((0, Contours.invLerp tl bl thr * s), (Contours.invLerp tl tr thr * s, 0)),
           ((s, Contours.invLerp tr br thr * s), (Contours.invLerp bl br thr * s, s))] ∧
        ∀ q, Contours.onSeg q
              ((0, Contours.invLerp tl bl thr * s), (Contours.invLerp tl tr thr * s, 0)) →
          Contours.onSeg q
              ((s, Contours.invLerp tr br thr * s), (Contours.invLerp bl br thr * s, s)) →
          False) ∧
    ((thr < tl ∧ thr < br ∧ tr ≤ thr ∧ bl ≤ thr) →
      Contours.marchingSquares (Contours.cornerField tl tr bl br) 2 2 thr s =
          [((Contours.invLerp tl tr thr * s, 0), (s, Contours.invLerp tr br thr * s)),
           ((Contours.invLerp bl br thr * s, s), (0, Contours.invLerp tl bl thr * s))] ∧
        ∀ q, Contours.onSeg q
              ((Contours.invLerp tl tr thr * s, 0), (s, Contours.invLerp tr br thr * s)) →
          Contours.onSeg q
              ((Contours.invLerp bl br thr * s, s), (0, Contours.invLerp tl bl thr * s)) →
          False) := by
  constructor
  · rintro ⟨h1, h2, h3, h4⟩
    have ha := Contours.invLerp_nonneg_lt_one h1 h4
    have hb := Contours.invLerp_nonneg_lt_one h1 h3
    have hc := Contours.invLerp_pos_le_one h2 h3
    have hd := Contours.invLerp_pos_le_one h2 h4
    refine ⟨?_, Contours.segA_disjoint hs ha.2 hb.2 hc.1 hd.1⟩
    simp only [Contours.marchingSquares, Contours.cornerField, List.range_succ,
      List.range_zero, List.nil_append, List.flatMap_cons, List.flatMap_nil, List.append_nil]
    norm_num
    rw [if_neg (not_lt.mpr h1), if_pos h3, if_neg (not_lt.mpr h2), if_pos h4]
    norm_num [Contours.EDGE_TABLE, Contours.getEdgePoint]
  · rintro ⟨h1, h2, h3, h4⟩
    have ha := Contours.invLerp_pos_le_one h4 h1
    have hb := Contours.invLerp_pos_le_one h3 h1
    have hc := Contours.invLerp_nonneg_lt_one h3 h2
    have hd := Contours.invLerp_nonneg_lt_one h4 h2
    refine ⟨?_, Contours.segB_disjoint hs ha.1 hb.1 hc.2 hd.2⟩
    simp only [Contours.marchingSquares, Contours.cornerField, List.range_succ,
      List.range_zero, List.nil_append, List.flatMap_cons, List.flatMap_nil, List.append_nil]
    norm_num
    rw [if_pos h1, if_neg (not_lt.mpr h3), if_pos h2, if_neg (not_lt.mpr h4)]
    norm_num [Contours.EDGE_TABLE, Contours.getEdgePoint]

/-- Witness for C5: the saddle cell `tl = 0, tr = 10, br = 0, bl = 10` at
threshold `5` and cell size `1` produces exactly the two table-dictated
segments. -/
theorem c5_saddle_two_disjoint_segments_witness :
    Contours.marchingSquares (Contours.cornerField (0:ℝ) 10 10 0) 2 2 5 1 =
      [((0, Contours.invLerp 0 10 5 * 1), (Contours.invLerp 0 10 5 * 1, 0)),
       ((1, Contours.invLerp 10 0 5 * 1), (Contours.invLerp 10 0 5 * 1, 1))] :=
  ((c5_saddle_two_disjoint_segments 0 10 0 10 5 1 (by norm_num)).1
    ⟨by norm_num, by norm_num, by norm_num, by norm_num⟩).1

/-- Evaluation of the extractor on the 2×2 grid of the spec's test property:
corner values `tl = 10, tr = 0, br = 0, bl = 10`, threshold `5`, cell size
`1`.  The case index is `9` (`tl` and `bl` above), whose table entry is the
single pair `[2,0]`: one segment from the midpoint of the bottom edge to the
midpoint of the top edge. -/
theorem c6_cell_value :
    Contours.marchingSquares (Contours.cornerField (10 : ℝ) 0 10 0) 2 2 5 1 =
      [((1/2, 1), (1/2, 0))] := by
  simp only [Contours.marchingSquares, Contours.cornerField, Contours.EDGE_TABLE,
    Contours.getEdgePoint, Contours.invLerp, List.range_succ, List.range_zero]
  norm_num

/-- Counterexample to claim C6 as stated: on the unit cell with corner values
`tl = 10, tr = 0, br = 0, bl = 10` and threshold `5`, `marchingSquares` does
not return two segments (it returns exactly one).  This corner pattern is the
left-column-above configuration (case 9), not a saddle. -/
theorem c6_counterexample :
    (Contours.marchingSquares (Contours.cornerField (10 : ℝ) 0 10 0) 2 2 5 1).length ≠ 2 := by
  rw [c6_cell_value]; norm_num

/-- Claim C6 (amended): on the unit cell with corner values `tl = 10, tr = 0,
br = 0, bl = 10` and threshold `5`, `marchingSquares` returns exactly one
segment, whose endpoints are the exactly-interpolated midpoints of the bottom
and top edges, `(1/2, 1)` and `(1/2, 0)`; neither endpoint lies on the left
or right edge of the cell. -/
theorem c6_left_column_single_segment :
    Contours.marchingSquares (Contours.cornerField (10 : ℝ) 0 10 0) 2 2 5 1 =
        [((1/2, 1), (1/2, 0))] ∧
      (1/2 : ℝ) ≠ 0 ∧ (1/2 : ℝ) ≠ 1 :=
  ⟨c6_cell_value, by norm_num, by norm_num⟩

namespace Noise

variable {α : Type*} [LinearOrderedField α]

/-- The loop state of the `fbm` closure returned by `createFBM` (source:
`noise.js`): accumulated `value`, current octave `freq` and `amp`, and the
amplitude sum `maxValue`. -/
structure FbmAcc (α : Type*) where
  value : α
  freq : α
  amp : α
  maxValue : α

/-- The `for (let i = 0; i < octaves; i++)` loop of `fbm`, started from
`value = 0`, `freq = frequency`, `amp = 1`, `maxValue = 0`, run for the given
number of octaves.  Each iteration adds `noise2D(x·freq, y·freq) · amp` to
`value`, adds `amp` to `maxValue`, multiplies `freq` by `lacunarity` and
`amp` by `persistence`. -/
def fbmAux (noise2D : α → α → α) (x y lacunarity persistence frequency : α) :
    ℕ → FbmAcc α
  | 0 => ⟨0, frequency, 1, 0⟩
  | n + 1 =>
      let s := fbmAux noise2D x y lacunarity persistence frequency n
      ⟨s.value + noise2D (x * s.freq) (y * s.freq) * s.amp,
       s.freq * lacunarity, s.amp * persistence, s.maxValue + s.amp⟩

/-- `fbm(x, y, {octaves, frequency, lacunarity, persistence})` from
`createFBM` (source: `noise.js`), with the source's defaults
(`octaves = 3`, `frequency = 1`, `lacunarity = 2`, `persistence = 0.5`);
the octave sum is divided by the amplitude sum `maxValue`.  The base noise
primitive `noise2D` (the seeded simplex noise, an external library) is a
parameter. -/
def fbm (noise2D : α → α → α) (x y : α) (octaves : ℕ := 3)
    (frequency : α := 1) (lacunarity : α := 2) (persistence : α := 1/2) : α :=
  let s := fbmAux noise2D x y lacunarity persistence frequency octaves
  s.value / s.maxValue

/-- `generateNoiseField` (source: `noise.js`), value of the cell
`(col, row)`: the fbm noise sampled at `(col·baseFrequency + time,
row·baseFrequency)`.  This generator does depend on `time`; the orchestrator
imports it but never calls it (see `Ambient.updateNoiseFieldVal`). -/
def generateNoiseFieldVal (noise2D : α → α → α) (time baseFrequency : α)
    (octaves : ℕ) (row col : ℕ) : α :=
  fbm noise2D ((col : α) * baseFrequency + time) ((row : α) * baseFrequency) octaves 1 2 (1/2)

/-- In the fbm loop all octave amplitudes stay nonnegative when the
persistence is nonnegative. -/
theorem fbmAux_amp_nonneg (noise2D : ℝ → ℝ → ℝ) (x y lac p freq : ℝ)
    (hp : 0 ≤ p) : ∀ n, 0 ≤ (fbmAux noise2D x y lac p freq n).amp := by
  intro n
  induction n with
  | zero => norm_num [fbmAux]
  | succ n ih => exact mul_nonneg ih hp

/-- In the fbm loop the accumulated value is bounded in magnitude by the
accumulated amplitude sum, provided the base noise primitive stays in
`[-1, 1]`. -/
theorem fbmAux_value_le (noise2D : ℝ → ℝ → ℝ) (x y lac p freq : ℝ)
    (hp : 0 ≤ p) (hb : ∀ a b, |noise2D a b| ≤ 1) :
    ∀ n, |(fbmAux noise2D x y lac p freq n).value| ≤
      (fbmAux noise2D x y lac p freq n).maxValue := by
  intro n
  induction n with
  | zero => norm_num [fbmAux]
  | succ n ih =>
      have hamp := fbmAux_amp_nonneg noise2D x y lac p freq hp n
      calc |(fbmAux noise2D x y lac p freq (n + 1)).value|
          ≤ |(fbmAux noise2D x y lac p freq n).value| +
              |noise2D (x * (fbmAux noise2D x y lac p freq n).freq)
                  (y * (fbmAux noise2D x y lac p freq n).freq)| *
                (fbmAux noise2D x y lac p freq n).amp := by
            rw [fbmAux]
            refine (abs_add _ _).trans ?_
            rw [abs_mul, abs_of_nonneg hamp]
        _ ≤ (fbmAux noise2D x y lac p freq n).maxValue +
              1 * (fbmAux noise2D x y lac p freq n).amp := by
            have := hb (x * (fbmAux noise2D x y lac p freq n).freq)
              (y * (fbmAux noise2D x y lac p freq n).freq)
            have h2 := mul_le_mul_of_nonneg_right this hamp
            linarith [ih]
        _ = (fbmAux noise2D x y lac p freq (n + 1)).maxValue := by
            rw [fbmAux]; ring

/-- With at least one octave the amplitude sum is at least the first
octave's amplitude, `1`. -/
theorem fbmAux_maxValue_ge_one (noise2D : ℝ → ℝ → ℝ) (x y lac p freq : ℝ)
    (hp : 0 ≤ p) : ∀ n, 1 ≤ n → 1 ≤ (fbmAux noise2D x y lac p freq n).maxValue := by
  intro n
  induction n with
  | zero => omega
  | succ n ih =>
      intro _
      rcases Nat.eq_zero_or_pos n with h | h
      · subst h; norm_num [fbmAux]
      · have h1 := ih h
        have h2 := fbmAux_amp_nonneg noise2D x y lac p freq hp n
        rw [fbmAux]
        dsimp only
        linarith

/-- The fbm composite is bounded by `1` in magnitude for any nonnegative
persistence, any frequency and lacunarity, and at least one octave, assuming
the base noise primitive stays in `[-1, 1]`. -/
theorem fbm_abs_le (noise2D : ℝ → ℝ → ℝ) (x y lac p freq : ℝ)
    (hp : 0 ≤ p) (hb : ∀ a b, |noise2D a b| ≤ 1) (octaves : ℕ) (hoct : 1 ≤ octaves) :
    |fbm noise2D x y octaves freq lac p| ≤ 1 := by
  have h1 := fbmAux_value_le noise2D x y lac p freq hp hb octaves
  have h2 := fbmAux_maxValue_ge_one noise2D x y lac p freq hp octaves hoct
  rw [fbm, abs_div, abs_of_nonneg (by linarith :
    (0:ℝ) ≤ (fbmAux noise2D x y lac p freq octaves).maxValue)]
  rw [div_le_one (by linarith)]
  linarith

end Noise

/-- Claim C9: the fbm noise function is normalized by the total octave
amplitude.  For every input coordinate and every octave count of at least
one, assuming the base noise primitive returns values in `[-1, 1]`, the
composite value returned by `fbm` (with the source's defaults: amplitudes
halving and frequencies doubling per octave) lies within `[-1, 1]`,
because the octave sum is divided by the sum `maxValue` of the amplitudes. -/
theorem c9_fbm_normalized_bounded (noise2D : ℝ → ℝ → ℝ)
    (hb : ∀ a b, |noise2D a b| ≤ 1) (x y : ℝ) (octaves : ℕ) (hoct : 1 ≤ octaves) :
    -1 ≤ Noise.fbm noise2D x y octaves 1 2 (1/2) ∧
      Noise.fbm noise2D x y octaves 1 2 (1/2) ≤ 1 :=
  abs_le.mp (Noise.fbm_abs_le noise2D x y 2 (1/2) 1 (by norm_num) hb octaves hoct)

/-- Witness for C9: the bound holds at the constant-zero base noise, the
coordinate `(2, 3)`, and the default three octaves. -/
theorem c9_fbm_normalized_bounded_witness :
    -1 ≤ Noise.fbm (fun _ _ => (0:ℝ)) 2 3 3 1 2 (1/2) ∧
      Noise.fbm (fun _ _ => (0:ℝ)) 2 3 3 1 2 (1/2) ≤ 1 :=
  c9_fbm_normalized_bounded (fun _ _ => (0:ℝ)) (fun _ _ => by norm_num) 2 3 3 (by norm_num)

namespace Ambient

/-- `updateNoiseField` (source: `ambient.js`), value written to grid cell
`(i, j)`: the fbm noise at `(i·gridSize·baseFrequency,
j·gridSize·baseFrequency)` with options `{octaves, frequency: 1,
lacunarity: 2, persistence: 0.5}`.  The `currentTime` parameter is carried
exactly as in the source, where the body never uses it. -/
noncomputable def updateNoiseFieldVal (noise2D : ℝ → ℝ → ℝ) (gridSize baseFrequency : ℝ)
    (octaves : ℕ) (currentTime : ℝ) (i j : ℕ) : ℝ :=
  Noise.fbm noise2D ((i : ℝ) * gridSize * baseFrequency)
    ((j : ℝ) * gridSize * baseFrequency) octaves 1 2 (1/2)

end Ambient

/-- Claim C3 fails on the code: the scalar grid rewritten each frame by the
orchestrator's `updateNoiseField` does not depend on the animation time at
all — for every noise primitive, configuration and cell, the value stored at
two arbitrary animation times is identical, so the contour field does not
animate.  (The time-dependent generator `generateNoiseField` of `noise.js`
is imported but never called.) -/
theorem c3_grid_time_independent (noise2D : ℝ → ℝ → ℝ) (gridSize baseFrequency : ℝ)
    (octaves : ℕ) (t₁ t₂ : ℝ) (i j : ℕ) :
    Ambient.updateNoiseFieldVal noise2D gridSize baseFrequency octaves t₁ i j =
      Ambient.updateNoiseFieldVal noise2D gridSize baseFrequency octaves t₂ i j := rfl

/-!  ## Spring integrator (`spring.js`) and claim C4  -/

namespace Spring

structure SParticle where
  x : ℝ
  y : ℝ
  vx : ℝ
  vy : ℝ
  targetX : ℝ
  targetY : ℝ
  springStrength : ℝ
  friction : ℝ

def springStep (p : SParticle) (dt : ℝ := 1/60) : SParticle :=
  let dx := p.targetX - p.x
  let dy := p.targetY - p.y
  let ax := dx * p.springStrength
  let ay := dy * p.springStrength
  let vx := (p.vx + ax) * p.friction
  let vy := (p.vy + ay) * p.friction
  { p with vx := vx, vy := vy, x := p.x + vx, y := p.y + vy }

/-- One axis of `springStep`, acting on the pair (displacement to target, velocity). -/
def dvStep (k f : ℝ) (s : ℝ × ℝ) : ℝ × ℝ :=
  (s.1 - (s.2 + s.1 * k) * f, (s.2 + s.1 * k) * f)

def dseq (k f d0 v0 : ℝ) (n : ℕ) : ℝ := ((dvStep k f)^[n] (d0, v0)).1

def vseq (k f d0 v0 : ℝ) (n : ℕ) : ℝ := ((dvStep k f)^[n] (d0, v0)).2

theorem vseq_succ (k f d0 v0 : ℝ) (n : ℕ) :
    vseq k f d0 v0 (n + 1) = (vseq k f d0 v0 n + dseq k f d0 v0 n * k) * f := by
  unfold vseq dseq
  rw [Function.iterate_succ_apply']
  rfl

theorem dseq_succ (k f d0 v0 : ℝ) (n : ℕ) :
    dseq k f d0 v0 (n + 1) =
      dseq k f d0 v0 n - (vseq k f d0 v0 n + dseq k f d0 v0 n * k) * f := by
  unfold vseq dseq
  rw [Function.iterate_succ_apply']
  rfl

theorem vseq_eq_dseq_sub (k f d0 v0 : ℝ) (n : ℕ) :
    vseq k f d0 v0 (n + 1) = dseq k f d0 v0 n - dseq k f d0 v0 (n + 1) := by
  rw [dseq_succ, vseq_succ]; ring

theorem dseq_rec2 (k f d0 v0 : ℝ) (n : ℕ) :
    dseq k f d0 v0 (n + 1 + 1) =
      (1 + f - f * k) * dseq k f d0 v0 (n + 1) - f * dseq k f d0 v0 n := by
  have h1 := dseq_succ k f d0 v0 (n + 1)
  have h2 := vseq_succ k f d0 v0 n
  have h3 := dseq_succ k f d0 v0 n
  linear_combination h1 - f * h2 - f * h3

/-- The quadratic form that contracts by a factor `f` each step. -/
def Qseq (k f d0 v0 : ℝ) (n : ℕ) : ℝ :=
  dseq k f d0 v0 (n + 1) ^ 2 -
    (1 + f - f * k) * dseq k f d0 v0 (n + 1) * dseq k f d0 v0 n +
    f * dseq k f d0 v0 n ^ 2

theorem Qseq_succ (k f d0 v0 : ℝ) (n : ℕ) :
    Qseq k f d0 v0 (n + 1) = f * Qseq k f d0 v0 n := by
  unfold Qseq
  rw [dseq_rec2]
  ring

theorem Qseq_geom (k f d0 v0 : ℝ) (n : ℕ) :
    Qseq k f d0 v0 n = f ^ n * Qseq k f d0 v0 0 := by
  induction n with
  | zero => simp
  | succ n ih => rw [Qseq_succ, ih, pow_succ]; ring

theorem Qseq_lower (k f d0 v0 : ℝ) (n : ℕ) :
    (f - (1 + f - f * k) ^ 2 / 4) * dseq k f d0 v0 n ^ 2 ≤ Qseq k f d0 v0 n := by
  have h : Qseq k f d0 v0 n =
      (dseq k f d0 v0 (n + 1) - (1 + f - f * k) / 2 * dseq k f d0 v0 n) ^ 2 +
        (f - (1 + f - f * k) ^ 2 / 4) * dseq k f d0 v0 n ^ 2 := by
    unfold Qseq; ring
  nlinarith [sq_nonneg (dseq k f d0 v0 (n + 1) - (1 + f - f * k) / 2 * dseq k f d0 v0 n)]

/-- The characteristic discriminant is negative throughout the preset box. -/
theorem disc_neg {k f : ℝ} (hk1 : 0.015 ≤ k) (hk2 : k ≤ 0.04)
    (hf1 : 0.88 ≤ f) (hf2 : f ≤ 0.95) : (1 + f - f * k) ^ 2 < 4 * f := by
  have hbpos : 0 < 1 + f - f * k := by nlinarith
  have h1 : 1 + f - f * k ≤ 1 + 0.985 * f := by nlinarith
  have h2 : (1 + f - f * k) ^ 2 ≤ (1 + 0.985 * f) ^ 2 := by nlinarith
  have h3 : (1 + 0.985 * f) ^ 2 < 4 * f := by
    nlinarith [mul_nonneg (sub_nonneg.mpr hf1) (sub_nonneg.mpr hf2)]
  linarith

/-- Geometric decay of the displacement sequence. -/
theorem dseq_small {k f : ℝ} (hk1 : 0.015 ≤ k) (hk2 : k ≤ 0.04)
    (hf1 : 0.88 ≤ f) (hf2 : f ≤ 0.95) (d0 v0 : ℝ) (ε : ℝ) (hε : 0 < ε) :
    ∃ N, ∀ n ≥ N, |dseq k f d0 v0 n| < ε := by
  have hf0 : (0:ℝ) < f := by linarith
  have hflt : f < 1 := by linarith
  have hdisc := disc_neg hk1 hk2 hf1 hf2
  set δ := f - (1 + f - f * k) ^ 2 / 4 with hδdef
  have hδ : 0 < δ := by rw [hδdef]; linarith
  set Q0 := Qseq k f d0 v0 0 with hQ0def
  have hQ0 : 0 ≤ Q0 := by
    have hl := Qseq_lower k f d0 v0 0
    nlinarith [sq_nonneg (dseq k f d0 v0 0)]
  obtain ⟨N, hN⟩ := exists_pow_lt_of_lt_one
    (show (0:ℝ) < ε ^ 2 * δ / (Q0 + δ) by positivity) hflt
  refine ⟨N, fun n hn => ?_⟩
  have hfn : f ^ n ≤ f ^ N := pow_le_pow_of_le_one hf0.le hflt.le hn
  have hd2 : δ * dseq k f d0 v0 n ^ 2 ≤ f ^ n * Q0 := by
    have hl := Qseq_lower k f d0 v0 n
    rw [← hδdef] at hl
    have hg := Qseq_geom k f d0 v0 n
    rw [← hQ0def] at hg
    linarith
  have hstep : f ^ N * (Q0 + δ) < ε ^ 2 * δ := by
    have hpos : (0:ℝ) < Q0 + δ := by linarith
    calc f ^ N * (Q0 + δ) < ε ^ 2 * δ / (Q0 + δ) * (Q0 + δ) := by
          exact mul_lt_mul_of_pos_right hN hpos
      _ = ε ^ 2 * δ := by field_simp
  have hfinal : δ * dseq k f d0 v0 n ^ 2 < δ * ε ^ 2 := by
    have h1 : f ^ n * Q0 ≤ f ^ N * Q0 := mul_le_mul_of_nonneg_right hfn hQ0
    have h2 : f ^ N * Q0 ≤ f ^ N * (Q0 + δ) := by
      have h3 : (0:ℝ) ≤ f ^ N := le_of_lt (pow_pos hf0 N)
      nlinarith
    linarith
  have hsq : dseq k f d0 v0 n ^ 2 < ε ^ 2 :=
    lt_of_mul_lt_mul_left hfinal hδ.le
  nlinarith [sq_abs (dseq k f d0 v0 n), abs_nonneg (dseq k f d0 v0 n)]

/-- Convergence of one spring axis: displacement and velocity both become
arbitrarily small. -/
theorem dv_converges {k f : ℝ} (hk1 : 0.015 ≤ k) (hk2 : k ≤ 0.04)
    (hf1 : 0.88 ≤ f) (hf2 : f ≤ 0.95) (d0 v0 : ℝ) (ε : ℝ) (hε : 0 < ε) :
    ∃ N, ∀ n ≥ N, |dseq k f d0 v0 n| < ε ∧ |vseq k f d0 v0 n| < ε := by
  obtain ⟨N₁, hN₁⟩ := dseq_small hk1 hk2 hf1 hf2 d0 v0 (ε / 2) (by linarith)
  refine ⟨N₁ + 1, fun n hn => ?_⟩
  obtain ⟨m, rfl⟩ : ∃ m, n = m + 1 := ⟨n - 1, by omega⟩
  have hm : m ≥ N₁ := by omega
  have h1 := hN₁ m hm
  have h2 := hN₁ (m + 1) (by omega)
  constructor
  · linarith
  · rw [vseq_eq_dseq_sub]
    calc |dseq k f d0 v0 m - dseq k f d0 v0 (m + 1)|
        ≤ |dseq k f d0 v0 m| + |dseq k f d0 v0 (m + 1)| := abs_sub _ _
      _ < ε := by linarith


theorem springStep_x_dv (p : SParticle) :
    ((springStep p).targetX - (springStep p).x, (springStep p).vx) =
      dvStep p.springStrength p.friction (p.targetX - p.x, p.vx) := by
  simp only [springStep, dvStep, Prod.mk.injEq]
  constructor <;> ring_nf

theorem springStep_y_dv (p : SParticle) :
    ((springStep p).targetY - (springStep p).y, (springStep p).vy) =
      dvStep p.springStrength p.friction (p.targetY - p.y, p.vy) := by
  simp only [springStep, dvStep, Prod.mk.injEq]
  constructor <;> ring_nf

theorem iterate_spring_params (p : SParticle) (n : ℕ) :
    ((fun q => springStep q)^[n] p).targetX = p.targetX ∧
    ((fun q => springStep q)^[n] p).targetY = p.targetY ∧
    ((fun q => springStep q)^[n] p).springStrength = p.springStrength ∧
    ((fun q => springStep q)^[n] p).friction = p.friction := by
  induction n with
  | zero => exact ⟨rfl, rfl, rfl, rfl⟩
  | succ n ih =>
      rw [Function.iterate_succ_apply']
      exact ⟨ih.1, ih.2.1, ih.2.2.1, ih.2.2.2⟩

theorem iterate_spring_x (p : SParticle) (n : ℕ) :
    (((fun q => springStep q)^[n] p).targetX - ((fun q => springStep q)^[n] p).x,
      ((fun q => springStep q)^[n] p).vx) =
      (dvStep p.springStrength p.friction)^[n] (p.targetX - p.x, p.vx) := by
  induction n with
  | zero => rfl
  | succ n ih =>
      rw [Function.iterate_succ_apply', Function.iterate_succ_apply']
      have hpar := iterate_spring_params p n
      have h := springStep_x_dv ((fun q => springStep q)^[n] p)
      rw [hpar.1] at ih
      rw [hpar.2.2.1, hpar.2.2.2, hpar.1, ih] at h
      exact h

theorem iterate_spring_y (p : SParticle) (n : ℕ) :
    (((fun q => springStep q)^[n] p).targetY - ((fun q => springStep q)^[n] p).y,
      ((fun q => springStep q)^[n] p).vy) =
      (dvStep p.springStrength p.friction)^[n] (p.targetY - p.y, p.vy) := by
  induction n with
  | zero => rfl
  | succ n ih =>
      rw [Function.iterate_succ_apply', Function.iterate_succ_apply']
      have hpar := iterate_spring_params p n
      have h := springStep_y_dv ((fun q => springStep q)^[n] p)
      rw [hpar.2.1] at ih
      rw [hpar.2.2.1, hpar.2.2.2, hpar.2.1, ih] at h
      exact h

end Spring

/-- Claim C4: for every stiffness/damping pair drawn from the documented
preset ranges (`springStrength` in `[0.015, 0.04]`, `friction` in
`[0.88, 0.95]`, hence damping in `(0,1)`) and any fixed target, iterating
the spring step `vel' = (vel + displacement * stiffness) * damping;
pos' = pos + vel'` from any initial position and velocity converges: for
every positive tolerance there is an `N` after which both position
coordinates are within the tolerance of the target and both velocity
components are within the tolerance of zero (in particular there is no
sustained oscillation growth). -/
theorem c4_spring_convergence (p : Spring.SParticle)
    (hk : 0.015 ≤ p.springStrength ∧ p.springStrength ≤ 0.04)
    (hf : 0.88 ≤ p.friction ∧ p.friction ≤ 0.95)
    (ε : ℝ) (hε : 0 < ε) :
    ∃ N, ∀ n ≥ N,
      |((fun q => Spring.springStep q)^[n] p).x - p.targetX| < ε ∧
      |((fun q => Spring.springStep q)^[n] p).y - p.targetY| < ε ∧
      |((fun q => Spring.springStep q)^[n] p).vx| < ε ∧
      |((fun q => Spring.springStep q)^[n] p).vy| < ε := by
  obtain ⟨Nx, hNx⟩ := Spring.dv_converges hk.1 hk.2 hf.1 hf.2
    (p.targetX - p.x) p.vx ε hε
  obtain ⟨Ny, hNy⟩ := Spring.dv_converges hk.1 hk.2 hf.1 hf.2
    (p.targetY - p.y) p.vy ε hε
  refine ⟨max Nx Ny, fun n hn => ?_⟩
  have h1 := hNx n (le_trans (le_max_left _ _) hn)
  have h2 := hNy n (le_trans (le_max_right _ _) hn)
  unfold Spring.dseq Spring.vseq at h1 h2
  rw [← Spring.iterate_spring_x p n] at h1
  rw [← Spring.iterate_spring_y p n] at h2
  simp only at h1 h2
  have hpar := Spring.iterate_spring_params p n
  rw [hpar.1] at h1
  rw [hpar.2.1] at h2
  rw [abs_sub_comm] at h1 h2
  exact ⟨h1.1, h2.1, h1.2, h2.2⟩

/-- Witness for C4: convergence at the smooth-preset pair
`springStrength = 0.02`, `friction = 0.92`, from the origin with target
`(100, 50)` and tolerance `1/10`. -/
theorem c4_spring_convergence_witness :
    ∃ N, ∀ n ≥ N,
      |((fun q => Spring.springStep q)^[n]
          (⟨0, 0, 0, 0, 100, 50, 0.02, 0.92⟩ : Spring.SParticle)).x -
        (⟨0, 0, 0, 0, 100, 50, 0.02, 0.92⟩ : Spring.SParticle).targetX| < 1/10 ∧
      |((fun q => Spring.springStep q)^[n]
          (⟨0, 0, 0, 0, 100, 50, 0.02, 0.92⟩ : Spring.SParticle)).y -
        (⟨0, 0, 0, 0, 100, 50, 0.02, 0.92⟩ : Spring.SParticle).targetY| < 1/10 ∧
      |((fun q => Spring.springStep q)^[n]
          (⟨0, 0, 0, 0, 100, 50, 0.02, 0.92⟩ : Spring.SParticle)).vx| < 1/10 ∧
      |((fun q => Spring.springStep q)^[n]
          (⟨0, 0, 0, 0, 100, 50, 0.02, 0.92⟩ : Spring.SParticle)).vy| < 1/10 :=
  c4_spring_convergence ⟨0, 0, 0, 0, 100, 50, 0.02, 0.92⟩
    ⟨by norm_num, by norm_num⟩ ⟨by norm_num, by norm_num⟩ (1/10) (by norm_num)

/-- Claim C10 fails on the code: on the 2×2 grid with corner values
`tl = -1, tr = -3, br = -3, bl = 1` and threshold `0` (case index 1, whose
table entry `[3,0]` joins the left and top edges although only the left and
bottom edges are straddled), the extractor emits the endpoint `(-1/2, 0)`.
That endpoint is interpolated along the top edge, both of whose corner values
(`-1` and `-3`, grid indices 0 and 1) are at or below the threshold, its
interpolation parameter is `-1/2 ∉ [0,1)`, and it does not lie on the
boundary of the cell square `[0,1]²`. -/
theorem c10_nonboundary_endpoint :
    Contours.marchingSquares (Contours.cornerField (-1 : ℝ) (-3) 1 (-3)) 2 2 0 1 =
        [((0, 1/2), (-1/2, 0))] ∧
      ¬ Contours.onCellBoundary 1 ((-1/2 : ℝ), 0) ∧
      Contours.cornerField (-1 : ℝ) (-3) 1 (-3) 0 ≤ 0 ∧
      Contours.cornerField (-1 : ℝ) (-3) 1 (-3) 1 ≤ 0 := by
  refine ⟨?_, ?_, by norm_num [Contours.cornerField], by norm_num [Contours.cornerField]⟩
  · simp only [Contours.marchingSquares, Contours.cornerField, Contours.EDGE_TABLE,
      Contours.getEdgePoint, Contours.invLerp, List.range_succ, List.range_zero]
    norm_num
  · simp only [Contours.onCellBoundary]
    norm_num

namespace Particles

/-- The `Particle` class of `particles.js`.  The real-valued fields are, in
declaration order, exactly the fields assigned by the constructor; the final
field `targetOpacity` is the dynamic property assigned only by the
orchestrator's interactive-zone handlers (`ambient.js`), hence absent
(`none`) at construction.  Nothing in the repository ever assigns `offsetX`
or `offsetY` on particles, so no such field exists here (see
`Ambient.RParticle` for the retargeting data path that reads them). -/
structure Particle where
  targetX : ℝ
  targetY : ℝ
  x : ℝ
  y : ℝ
  vx : ℝ
  vy : ℝ
  springStrength : ℝ
  friction : ℝ
  size : ℝ
  color : String
  opacity : ℝ
  breathPhase : ℝ
  breathSpeed : ℝ
  breathAmplitude : ℝ
  isRepelled : Bool
  repelForceX : ℝ
  repelForceY : ℝ
  targetOpacity : Option ℝ

/-- The optional fields of the constructor's `config` argument. -/
structure ParticleConfig where
  startX : Option ℝ := none
  startY : Option ℝ := none
  springStrength : Option ℝ := none
  friction : Option ℝ := none
  size : Option ℝ := none
  color : Option String := none
  opacity : Option ℝ := none
  breathAmplitude : Option ℝ := none

/-- `new Particle(targetX, targetY, config)` from `particles.js`.  The three
`Math.random()` draws of the constructor (size jitter, breath phase, breath
speed) are passed in as the parameters `r1 r2 r3`. -/
noncomputable def mkParticle (targetX targetY : ℝ) (config : ParticleConfig)
    (r1 r2 r3 : ℝ) : Particle :=
  { targetX := targetX
    targetY := targetY
    x := config.startX.getD targetX
    y := config.startY.getD targetY
    vx := 0
    vy := 0
    springStrength := config.springStrength.getD 0.02
    friction := config.friction.getD 0.92
    size := config.size.getD (2 + r1 * 2)
    color := config.color.getD "#FFFFFF"
    opacity := config.opacity.getD 1.0
    breathPhase := r2 * Real.pi * 2
    breathSpeed := 0.02 + r3 * 0.01
    breathAmplitude := config.breathAmplitude.getD 0.5
    isRepelled := false
    repelForceX := 0
    repelForceY := 0
    targetOpacity := none }

/-- `Particle.update(time, isSettled)` from `particles.js`: breathing offset
(only when settled and the amplitude is positive), spring force toward the
effective target, accumulated repel force, friction, Euler position update,
and reset of the per-frame repel force.  The `time` parameter is carried
exactly as in the source, where the body never uses it.  The source mutates
`breathPhase` before sampling `cos`/`sin`, so the incremented phase is
sampled here. -/
noncomputable def Particle.update (p : Particle) (time : ℝ)
    (isSettled : Bool := false) : Particle :=
  let breath :=
    if isSettled = true ∧ 0 < p.breathAmplitude then
      (p.breathPhase + p.breathSpeed,
       Real.cos (p.breathPhase + p.breathSpeed) * p.breathAmplitude,
       Real.sin (p.breathPhase + p.breathSpeed) * p.breathAmplitude)
    else (p.breathPhase, 0, 0)
  let effectiveTargetX := p.targetX + breath.2.1
  let effectiveTargetY := p.targetY + breath.2.2
  let dx := effectiveTargetX - p.x
  let dy := effectiveTargetY - p.y
  let springForceX := dx * p.springStrength
  let springForceY := dy * p.springStrength
  let totalForceX := springForceX + p.repelForceX
  let totalForceY := springForceY + p.repelForceY
  let vx1 := (p.vx + totalForceX) * p.friction
  let vy1 := (p.vy + totalForceY) * p.friction
  { p with
    breathPhase := breath.1
    vx := vx1
    vy := vy1
    x := p.x + vx1
    y := p.y + vy1
    repelForceX := 0
    repelForceY := 0
    isRepelled := false }

/-- `Particle.applyRepelForce(mouseX, mouseY, radius, strength)` from
`particles.js`: inverse-square falloff with the `0.01` epsilon guards of
the source, writing only the per-frame repel-force fields. -/
noncomputable def Particle.applyRepelForce (p : Particle)
    (mouseX mouseY radius strength : ℝ) : Particle :=
  let dx := p.x - mouseX
  let dy := p.y - mouseY
  let distSq := dx * dx + dy * dy
  let radiusSq := radius * radius
  if distSq < radiusSq ∧ 0.01 < distSq then
    let dist := Real.sqrt distSq
    let forceMagnitude := strength / (distSq + 0.01)
    { p with
      repelForceX := dx / dist * forceMagnitude
      repelForceY := dy / dist * forceMagnitude
      isRepelled := true }
  else p

end Particles

namespace Spring

/-- `Math.atan2(y, x)`, modelled as the argument of the complex number
`x + y·i` (identical on all real inputs, including `atan2 0 0 = 0`). -/
noncomputable def atan2 (y x : ℝ) : ℝ := Complex.arg ⟨x, y⟩

/-- `applyRepulsion(particle, px, py, {radius, strength})` from `spring.js`:
quadratic falloff repulsion with an early return when the distance is at
least the radius or exactly zero. -/
noncomputable def applyRepulsion (p : SParticle) (px py : ℝ)
    (radius : ℝ := 100) (strength : ℝ := 5) : SParticle :=
  let dx := p.x - px
  let dy := p.y - py
  let distance := Real.sqrt (dx * dx + dy * dy)
  if radius ≤ distance ∨ distance = 0 then p
  else
    let force := (1 - distance / radius) ^ 2 * strength
    let angle := atan2 dy dx
    { p with vx := p.vx + Real.cos angle * force,
             vy := p.vy + Real.sin angle * force }

end Spring

namespace Ambient

/-- `handleInteractiveEnter` (source: `ambient.js`), restricted to its
per-particle action: assigns the dynamic property `targetOpacity := 0`. -/
def handleInteractiveEnter (p : Particles.Particle) : Particles.Particle :=
  { p with targetOpacity := some 0 }

/-- `handleInteractiveLeave` (source: `ambient.js`), restricted to its
per-particle action: assigns the dynamic property `targetOpacity := 1.0`. -/
def handleInteractiveLeave (p : Particles.Particle) : Particles.Particle :=
  { p with targetOpacity := some 1 }

end Ambient

/-- Claim C2 fails on the code: the interactive-zone enter handler sets every
particle's `targetOpacity` to `0` (and the leave handler to `1.0`), but the
per-frame particle advance `Particle.update` never reads `targetOpacity` and
never writes `opacity` — no `opacity += (targetOpacity − opacity) × fadeRate`
step exists anywhere in the sources.  Consequently, after the enter handler,
any number of per-frame updates leaves `opacity` exactly unchanged: a
particle at opacity `1` never approaches the target `0`. -/
theorem c2_opacity_never_fades (p : Particles.Particle) (time : ℝ)
    (isSettled : Bool) (n : ℕ) :
    (Ambient.handleInteractiveEnter p).targetOpacity = some 0 ∧
    ((fun q => Particles.Particle.update q time isSettled)^[n]
        (Ambient.handleInteractiveEnter p)).opacity = p.opacity := by
  refine ⟨rfl, ?_⟩
  induction n with
  | zero => rfl
  | succ n ih =>
      rw [Function.iterate_succ_apply']
      exact ih

/-- Claim C7: pointer-repulsion locality and boundedness.  For
`Particle.applyRepelForce`, the per-frame repulsion used by the frame loop:
a particle at distance at least the (nonnegative) radius from the pointer is
left completely unchanged (zero force contribution); a particle at distance
exactly `0` is left unchanged (bounded force); position and velocity fields
are never touched by the repulsion call itself; and the written repel force
is either untouched or bounded by `100·|strength|` (the `0.01` epsilon in
the guarded denominator), so no infinite value can enter the position state.
The same locality holds for the quadratic-falloff `applyRepulsion` of
`spring.js`. -/
theorem c7_repulsion_locality_bounded (p : Particles.Particle)
    (sp : Spring.SParticle) (mouseX mouseY radius strength : ℝ) :
    (0 ≤ radius →
      radius ≤ Real.sqrt ((p.x - mouseX) * (p.x - mouseX) + (p.y - mouseY) * (p.y - mouseY)) →
      Particles.Particle.applyRepelForce p mouseX mouseY radius strength = p) ∧
    (Real.sqrt ((p.x - mouseX) * (p.x - mouseX) + (p.y - mouseY) * (p.y - mouseY)) = 0 →
      Particles.Particle.applyRepelForce p mouseX mouseY radius strength = p) ∧
    ((Particles.Particle.applyRepelForce p mouseX mouseY radius strength).x = p.x ∧
      (Particles.Particle.applyRepelForce p mouseX mouseY radius strength).y = p.y ∧
      (Particles.Particle.applyRepelForce p mouseX mouseY radius strength).vx = p.vx ∧
      (Particles.Particle.applyRepelForce p mouseX mouseY radius strength).vy = p.vy ∧
      (Particles.Particle.applyRepelForce p mouseX mouseY radius strength).opacity
        = p.opacity) ∧
    (((Particles.Particle.applyRepelForce p mouseX mouseY radius strength).repelForceX
          = p.repelForceX ∧
      (Particles.Particle.applyRepelForce p mouseX mouseY radius strength).repelForceY
          = p.repelForceY) ∨
     (|(Particles.Particle.applyRepelForce p mouseX mouseY radius strength).repelForceX|
          ≤ 100 * |strength| ∧
      |(Particles.Particle.applyRepelForce p mouseX mouseY radius strength).repelForceY|
          ≤ 100 * |strength|)) ∧
    (radius ≤ Real.sqrt ((sp.x - mouseX) * (sp.x - mouseX) + (sp.y - mouseY) * (sp.y - mouseY)) →
      Spring.applyRepulsion sp mouseX mouseY radius strength = sp) ∧
    (Real.sqrt ((sp.x - mouseX) * (sp.x - mouseX) + (sp.y - mouseY) * (sp.y - mouseY)) = 0 →
      Spring.applyRepulsion sp mouseX mouseY radius strength = sp) := by
  have hq : (0:ℝ) ≤ (p.x - mouseX) * (p.x - mouseX) + (p.y - mouseY) * (p.y - mouseY) := by
    nlinarith [sq_nonneg (p.x - mouseX), sq_nonneg (p.y - mouseY)]
  refine ⟨?_, ?_, ?_, ?_, ?_, ?_⟩
  · intro hr hd
    have hrr : radius * radius ≤
        (p.x - mouseX) * (p.x - mouseX) + (p.y - mouseY) * (p.y - mouseY) := by
      calc radius * radius
          ≤ Real.sqrt ((p.x - mouseX) * (p.x - mouseX) + (p.y - mouseY) * (p.y - mouseY)) *
            Real.sqrt ((p.x - mouseX) * (p.x - mouseX) + (p.y - mouseY) * (p.y - mouseY)) :=
            mul_self_le_mul_self hr hd
        _ = _ := Real.mul_self_sqrt hq
    simp only [Particles.Particle.applyRepelForce]
    split_ifs with h
    · exact absurd h.1 (not_lt.mpr hrr)
    · rfl
  · intro hd
    have hq0 : (p.x - mouseX) * (p.x - mouseX) + (p.y - mouseY) * (p.y - mouseY) = 0 :=
      (Real.sqrt_eq_zero hq).mp hd
    simp only [Particles.Particle.applyRepelForce]
    split_ifs with h
    · rw [hq0] at h
      exact absurd h.2 (by norm_num)
    · rfl
  · simp only [Particles.Particle.applyRepelForce]
    split_ifs with h <;> exact ⟨rfl, rfl, rfl, rfl, rfl⟩
  · simp only [Particles.Particle.applyRepelForce]
    split_ifs with h
    · right
      have hq01 : (0.01:ℝ) < (p.x - mouseX) * (p.x - mouseX) + (p.y - mouseY) * (p.y - mouseY) :=
        h.2
      have hqpos : (0:ℝ) < (p.x - mouseX) * (p.x - mouseX) + (p.y - mouseY) * (p.y - mouseY) :=
        lt_trans (by norm_num) hq01
      have hdist : (0:ℝ) < Real.sqrt
          ((p.x - mouseX) * (p.x - mouseX) + (p.y - mouseY) * (p.y - mouseY)) :=
        Real.sqrt_pos.mpr hqpos
      have hden : (0:ℝ) <
          (p.x - mouseX) * (p.x - mouseX) + (p.y - mouseY) * (p.y - mouseY) + 0.01 := by
        linarith
      have hdx : |p.x - mouseX| ≤ Real.sqrt
          ((p.x - mouseX) * (p.x - mouseX) + (p.y - mouseY) * (p.y - mouseY)) := by
        rw [← Real.sqrt_mul_self_eq_abs]
        exact Real.sqrt_le_sqrt (by nlinarith [sq_nonneg (p.y - mouseY)])
      have hdy : |p.y - mouseY| ≤ Real.sqrt
          ((p.x - mouseX) * (p.x - mouseX) + (p.y - mouseY) * (p.y - mouseY)) := by
        rw [← Real.sqrt_mul_self_eq_abs]
        exact Real.sqrt_le_sqrt (by nlinarith [sq_nonneg (p.x - mouseX)])
      have hmag : |strength| /
          ((p.x - mouseX) * (p.x - mouseX) + (p.y - mouseY) * (p.y - mouseY) + 0.01)
            ≤ 100 * |strength| := by
        rw [div_le_iff₀ hden]
        nlinarith [abs_nonneg strength]
      constructor
      · rw [abs_mul, abs_div, abs_of_pos hdist, abs_div, abs_of_pos hden]
        calc |p.x - mouseX| /
              Real.sqrt ((p.x - mouseX) * (p.x - mouseX) + (p.y - mouseY) * (p.y - mouseY)) *
              (|strength| /
                ((p.x - mouseX) * (p.x - mouseX) + (p.y - mouseY) * (p.y - mouseY) + 0.01))
            ≤ 1 * (100 * |strength|) := by
              apply mul_le_mul ((div_le_one hdist).mpr hdx) hmag (by positivity) (by norm_num)
          _ = 100 * |strength| := one_mul _
      · rw [abs_mul, abs_div, abs_of_pos hdist, abs_div, abs_of_pos hden]
        calc |p.y - mouseY| /
              Real.sqrt ((p.x - mouseX) * (p.x - mouseX) + (p.y - mouseY) * (p.y - mouseY)) *
              (|strength| /
                ((p.x - mouseX) * (p.x - mouseX) + (p.y - mouseY) * (p.y - mouseY) + 0.01))
            ≤ 1 * (100 * |strength|) := by
              apply mul_le_mul ((div_le_one hdist).mpr hdy) hmag (by positivity) (by norm_num)
          _ = 100 * |strength| := one_mul _
    · exact Or.inl ⟨rfl, rfl⟩
  · intro hd
    simp only [Spring.applyRepulsion]
    rw [if_pos (Or.inl hd)]
  · intro hd
    simp only [Spring.applyRepulsion]
    rw [if_pos (Or.inr hd)]

/-- Witness for C7: a particle at the origin with the pointer at `(10, 0)`
(distance `10`) and radius `5` is left unchanged by both repulsion
functions. -/
theorem c7_repulsion_locality_bounded_witness :
    Particles.Particle.applyRepelForce
        (⟨0, 0, 0, 0, 0, 0, 0.02, 0.92, 2, "#FFFFFF", 1, 0, 0.02, 0.5, false, 0, 0, none⟩ :
          Particles.Particle) 10 0 5 2 =
      (⟨0, 0, 0, 0, 0, 0, 0.02, 0.92, 2, "#FFFFFF", 1, 0, 0.02, 0.5, false, 0, 0, none⟩ :
          Particles.Particle) ∧
    Spring.applyRepulsion (⟨0, 0, 0, 0, 0, 0, 0.02, 0.92⟩ : Spring.SParticle) 10 0 5 2 =
      (⟨0, 0, 0, 0, 0, 0, 0.02, 0.92⟩ : Spring.SParticle) := by
  have hsqrt : Real.sqrt 100 = 10 := by
    rw [show (100:ℝ) = 10 ^ 2 by norm_num, Real.sqrt_sq (by norm_num)]
  constructor
  · apply (c7_repulsion_locality_bounded _ ⟨0, 0, 0, 0, 0, 0, 0.02, 0.92⟩ 10 0 5 2).1
    · norm_num
    · show (5:ℝ) ≤ Real.sqrt (((0:ℝ) - 10) * ((0:ℝ) - 10) + ((0:ℝ) - 0) * ((0:ℝ) - 0))
      rw [show ((0:ℝ) - 10) * ((0:ℝ) - 10) + ((0:ℝ) - 0) * ((0:ℝ) - 0) = 100 by norm_num,
        hsqrt]
      norm_num
  · apply (c7_repulsion_locality_bounded
      ⟨0, 0, 0, 0, 0, 0, 0.02, 0.92, 2, "#FFFFFF", 1, 0, 0.02, 0.5, false, 0, 0, none⟩
      _ 10 0 5 2).2.2.2.2.1
    show (5:ℝ) ≤ Real.sqrt (((0:ℝ) - 10) * ((0:ℝ) - 10) + ((0:ℝ) - 0) * ((0:ℝ) - 0))
    rw [show ((0:ℝ) - 10) * ((0:ℝ) - 10) + ((0:ℝ) - 0) * ((0:ℝ) - 0) = 100 by norm_num,
      hsqrt]
    norm_num

namespace Ambient

/-- A JavaScript numeric value on the particle-retargeting data path:
`some r` is an ordinary finite number; `none` models `undefined`/`NaN`
(reading an object property that no code ever assigns yields `undefined`,
and arithmetic involving it yields `NaN`). -/
abbrev JsNum := Option ℝ

/-- JavaScript `+` on that data path: real addition on numbers; any operand
that is `undefined`/`NaN` makes the result `NaN`. -/
def jsAdd : JsNum → JsNum → JsNum
  | some a, some b => some (a + b)
  | _, _ => none

/-- The particle object as seen by the retargeting step
`updateParticleTargets` of `ambient.js`: the fields it reads and writes,
with JavaScript-value semantics on the `targetX/targetY/offsetX/offsetY`
path.  `offsetX`/`offsetY` are properties that no code anywhere in the
repository assigns. -/
structure RParticle where
  x : ℝ
  y : ℝ
  vx : ℝ
  vy : ℝ
  opacity : ℝ
  targetX : JsNum
  targetY : JsNum
  offsetX : JsNum
  offsetY : JsNum

/-- The `Particle` constructor (`particles.js`) restricted to this view:
it assigns `targetX`/`targetY` (finite numbers), position, zero velocity and
opacity `1.0`; it never assigns `offsetX`/`offsetY`, and neither does any
other code in the repository, so reading them yields `undefined` (`none`). -/
def mkRParticle (targetX targetY startX startY : ℝ) : RParticle :=
  { x := startX, y := startY, vx := 0, vy := 0, opacity := 1,
    targetX := some targetX, targetY := some targetY,
    offsetX := none, offsetY := none }

/-- `updateParticleTargets` (source: `ambient.js`), per-particle action:
`particle.targetX = logoState.centerX + particle.offsetX` and likewise for
`y`. -/
def updateParticleTargets (centerX centerY : ℝ) (p : RParticle) : RParticle :=
  { p with targetX := jsAdd (some centerX) p.offsetX,
           targetY := jsAdd (some centerY) p.offsetY }

end Ambient

/-- Claim C1 fails on the code: the `Particle` constructor stores the target
position but never stores an offset-from-centroid (`offsetX`/`offsetY` are
assigned nowhere in the repository), so the per-frame retarget step
`targetX = centerX + offsetX` adds the centroid to `undefined` and writes
`NaN` into both target coordinates of every constructor-built particle — the
retargeted target minus the centroid equals no real offset at all.  (The
retarget step does leave position, velocity and opacity unchanged, as the
claim says.) -/
theorem c1_retarget_writes_nan (targetX targetY startX startY centerX centerY : ℝ) :
    (Ambient.updateParticleTargets centerX centerY
        (Ambient.mkRParticle targetX targetY startX startY)).targetX = none ∧
    (Ambient.updateParticleTargets centerX centerY
        (Ambient.mkRParticle targetX targetY startX startY)).targetY = none ∧
    (¬ ∃ o : ℝ, (Ambient.updateParticleTargets centerX centerY
        (Ambient.mkRParticle targetX targetY startX startY)).targetX
          = some (centerX + o)) ∧
    (Ambient.updateParticleTargets centerX centerY
        (Ambient.mkRParticle targetX targetY startX startY)).x = startX ∧
    (Ambient.updateParticleTargets centerX centerY
        (Ambient.mkRParticle targetX targetY startX startY)).vx = 0 ∧
    (Ambient.updateParticleTargets centerX centerY
        (Ambient.mkRParticle targetX targetY startX startY)).opacity = 1 := by
  refine ⟨rfl, rfl, ?_, rfl, rfl, rfl⟩
  rintro ⟨o, h⟩
  exact Option.noConfusion h

namespace Ambient

/-- `DEFAULT_CONFIG` (source: `ambient.js`), all fields. -/
structure AmbientConfig where
  gridSize : ℝ
  octaves : ℕ
  baseFrequency : ℝ
  timeSpeed : ℝ
  thresholds : List ℝ
  particleCount : ℕ
  mouseRadius : ℝ
  mouseForce : ℝ
  particleSpringFeel : String
  showContours : Bool
  showParticles : Bool
  backgroundColor : String
  contourColor : String
  logoSvgUrl : Option String
  useSamplingDensity : ℕ
  alphaThreshold : ℕ
  logoSpringStrength : ℝ
  logoFriction : ℝ
  enableLogoFollow : Bool

/-- The default configuration values of `ambient.js`. -/
def DEFAULT_CONFIG : AmbientConfig :=
  { gridSize := 40, octaves := 3, baseFrequency := 0.008, timeSpeed := 0.0003,
    thresholds := [-0.5, -0.2, 0.1, 0.4, 0.7], particleCount := 500,
    mouseRadius := 100, mouseForce := 0.5, particleSpringFeel := "smooth",
    showContours := true, showParticles := true, backgroundColor := "#0a0e1a",
    contourColor := "rgba(255, 255, 255, 0.15)", logoSvgUrl := none,
    useSamplingDensity := 2, alphaThreshold := 128,
    logoSpringStrength := 0.015, logoFriction := 0.93, enableLogoFollow := true }

/-- A partial configuration (the `options`/`newConfig` objects): absent
fields are `none`. -/
structure AmbientOptions where
  gridSize : Option ℝ := none
  octaves : Option ℕ := none
  baseFrequency : Option ℝ := none
  timeSpeed : Option ℝ := none
  thresholds : Option (List ℝ) := none
  particleCount : Option ℕ := none
  mouseRadius : Option ℝ := none
  mouseForce : Option ℝ := none
  particleSpringFeel : Option String := none
  showContours : Option Bool := none
  showParticles : Option Bool := none
  backgroundColor : Option String := none
  contourColor : Option String := none
  logoSvgUrl : Option (Option String) := none
  useSamplingDensity : Option ℕ := none
  alphaThreshold : Option ℕ := none
  logoSpringStrength : Option ℝ := none
  logoFriction : Option ℝ := none
  enableLogoFollow : Option Bool := none

/-- The spread/`Object.assign` merge `{ ...DEFAULT_CONFIG, ...options }`
done by `createAmbientHeader` and `updateConfig`: every provided field
overrides the base, with no validation of any kind (the source has no
check and no error path). -/
def mergeConfig (base : AmbientConfig) (o : AmbientOptions) : AmbientConfig :=
  { gridSize := o.gridSize.getD base.gridSize,
    octaves := o.octaves.getD base.octaves,
    baseFrequency := o.baseFrequency.getD base.baseFrequency,
    timeSpeed := o.timeSpeed.getD base.timeSpeed,
    thresholds := o.thresholds.getD base.thresholds,
    particleCount := o.particleCount.getD base.particleCount,
    mouseRadius := o.mouseRadius.getD base.mouseRadius,
    mouseForce := o.mouseForce.getD base.mouseForce,
    particleSpringFeel := o.particleSpringFeel.getD base.particleSpringFeel,
    showContours := o.showContours.getD base.showContours,
    showParticles := o.showParticles.getD base.showParticles,
    backgroundColor := o.backgroundColor.getD base.backgroundColor,
    contourColor := o.contourColor.getD base.contourColor,
    logoSvgUrl := o.logoSvgUrl.getD base.logoSvgUrl,
    useSamplingDensity := o.useSamplingDensity.getD base.useSamplingDensity,
    alphaThreshold := o.alphaThreshold.getD base.alphaThreshold,
    logoSpringStrength := o.logoSpringStrength.getD base.logoSpringStrength,
    logoFriction := o.logoFriction.getD base.logoFriction,
    enableLogoFollow := o.enableLogoFollow.getD base.enableLogoFollow }

/-- The logo centre state of `ambient.js`. -/
structure LogoState where
  centerX : ℝ
  centerY : ℝ
  targetCenterX : ℝ
  targetCenterY : ℝ
  velocityX : ℝ
  velocityY : ℝ
  initialCenterX : ℝ
  initialCenterY : ℝ
  springStrength : ℝ
  friction : ℝ
  isFollowingMouse : Bool

/-- The `logoState` initialiser plus `initializeLogoState` of
`createAmbientHeader`: centres at the canvas centre, zero velocity, and the
spring parameters taken from the (merged, unvalidated) configuration. -/
noncomputable def mkLogoState (config : AmbientConfig) (width height : ℝ) : LogoState :=
  { centerX := width / 2, centerY := height / 2,
    targetCenterX := width / 2, targetCenterY := height / 2,
    velocityX := 0, velocityY := 0,
    initialCenterX := width / 2, initialCenterY := height / 2,
    springStrength := config.logoSpringStrength,
    friction := config.logoFriction,
    isFollowingMouse := false }

/-- `updateLogoPosition` (source: `ambient.js`): one spring step of the logo
centre toward its target, using whatever `springStrength`/`friction` the
state holds. -/
def updateLogoPosition (s : LogoState) : LogoState :=
  let dx := s.targetCenterX - s.centerX
  let dy := s.targetCenterY - s.centerY
  let forceX := dx * s.springStrength
  let forceY := dy * s.springStrength
  let vx := (s.velocityX + forceX) * s.friction
  let vy := (s.velocityY + forceY) * s.friction
  { s with velocityX := vx, velocityY := vy,
           centerX := s.centerX + vx, centerY := s.centerY + vy }

/-- `updateConfig(newConfig)` (source: `ambient.js`): `Object.assign` onto
the config, then copy any provided `logoSpringStrength`/`logoFriction` into
the logo state.  No validation, no clamping, no error path exists in the
source; the new values are used by subsequent frames. -/
def updateConfig (config : AmbientConfig) (s : LogoState) (newConfig : AmbientOptions) :
    AmbientConfig × LogoState :=
  (mergeConfig config newConfig,
   { s with springStrength := newConfig.logoSpringStrength.getD s.springStrength,
            friction := newConfig.logoFriction.getD s.friction })

end Ambient

/-- Claim C8 fails on the code: constructing the controller (or updating its
configuration) with a negative spring stiffness and a damping outside
`(0,1)` is accepted — the values are merged verbatim into the configuration
and the logo state (no error, no clamp), and the very next simulation step
uses them: with `logoSpringStrength = -1` and `logoFriction = 2`, a logo at
centre `100` with target `101` moves to `98` (velocity `-2`), driven by the
invalid values. -/
theorem c8_invalid_config_accepted :
    (Ambient.mergeConfig Ambient.DEFAULT_CONFIG
        { logoSpringStrength := some (-1), logoFriction := some 2 }).logoSpringStrength
      = -1 ∧
    (Ambient.mkLogoState (Ambient.mergeConfig Ambient.DEFAULT_CONFIG
        { logoSpringStrength := some (-1), logoFriction := some 2 }) 200 100).springStrength
      = -1 ∧
    (Ambient.mkLogoState (Ambient.mergeConfig Ambient.DEFAULT_CONFIG
        { logoSpringStrength := some (-1), logoFriction := some 2 }) 200 100).friction
      = 2 ∧
    (Ambient.updateLogoPosition
        { Ambient.mkLogoState (Ambient.mergeConfig Ambient.DEFAULT_CONFIG
            { logoSpringStrength := some (-1), logoFriction := some 2 }) 200 100 with
          targetCenterX := 101 }).centerX = 98 ∧
    (Ambient.updateLogoPosition
        { Ambient.mkLogoState (Ambient.mergeConfig Ambient.DEFAULT_CONFIG
            { logoSpringStrength := some (-1), logoFriction := some 2 }) 200 100 with
          targetCenterX := 101 }).velocityX = -2 ∧
    (Ambient.updateConfig Ambient.DEFAULT_CONFIG
        (Ambient.mkLogoState Ambient.DEFAULT_CONFIG 200 100)
        { logoSpringStrength := some (-1), logoFriction := some 2 }).2.springStrength
      = -1 := by
  refine ⟨rfl, rfl, rfl, ?_, ?_, rfl⟩ <;>
    · simp only [Ambient.updateLogoPosition, Ambient.mkLogoState, Ambient.mergeConfig,
        Ambient.DEFAULT_CONFIG, Option.getD]
      norm_num

/-- Witness for C1: at target `(5, 6)`, start `(1, 2)` and centroid `(3, 4)`,
the retargeted `targetX` is `NaN` (`none`). -/
theorem c1_retarget_writes_nan_witness :
    (Ambient.updateParticleTargets 3 4 (Ambient.mkRParticle 5 6 1 2)).targetX = none :=
  (c1_retarget_writes_nan 5 6 1 2 3 4).1
